import Mathlib

/-!
# Verification development for `main.go`

A shallow embedding of the process entrypoint of the signaling server
(`run`, `parseExternalIceServers`) together with the library routines whose
behaviour decides the results of `run`: `strconv.ParseUint`, `godotenv.Load`
and `os.Getenv`.  Go strings are byte sequences; the byte view of a string is
`goBytes`.
-/

namespace Main

/-! ## Go strings and errors -/

/-- The bytes of a Go string (its UTF-8 encoding), as natural numbers below 256. -/
def goBytes (s : String) : List Nat :=
  s.data.flatMap fun c => (String.utf8EncodeChar c).map UInt8.toNat

/-- A Go `error` value: a leaf error with its message and whether
`os.IsNotExist` holds of it, or an error made by `fmt.Errorf` with `%w`,
which carries the formatted message and the error it wraps. -/
inductive GoError where
  | leaf (msg : String) (notExist : Bool)
  | wrap (msg : String) (cause : GoError)
  deriving DecidableEq, Repr

namespace GoError

/-- The `Error()` method: the message of the error. -/
def Error : GoError → String
  | leaf msg _ => msg
  | wrap msg _ => msg

/-- The `Unwrap()` method: the wrapped error of a `%w` error, else nil. -/
def Unwrap : GoError → Option GoError
  | leaf _ _ => none
  | wrap _ cause => some cause

end GoError

/-- The call `fmt.Errorf(pfx + "%w", err)`: the message is the prefix followed
by the message of `err`, and the result wraps `err`. -/
def Errorf_w (pfx : String) (err : GoError) : GoError :=
  GoError.wrap (pfx ++ err.Error) err

/-- The call `os.IsNotExist(err)`.  It looks at the error itself (through the
path error of the failed system call), not through `%w` wrappers. -/
def IsNotExist : GoError → Bool
  | GoError.leaf _ ne => ne
  | GoError.wrap _ _ => false

/-! ## `strconv.ParseUint` -/

/-- The causes of the errors `strconv.ParseUint` returns: `ErrSyntax`,
`ErrRange`, and the invalid bit size error. -/
inductive NumError where
  | ErrSyntax
  | ErrRange
  | ErrBitSize
  deriving DecidableEq, Repr

/-- The constant `maxUint64` of package strconv. -/
def maxUint64 : Nat := 2 ^ 64 - 1

/-- The helper `lower` of package strconv: `c | ('x' - 'X')` on a byte. -/
def lower (c : Nat) : Nat := c ||| 0x20

/-- The `switch` at the head of the loop body of `strconv.ParseUint`, when
the base argument is not 0: the value of the byte `c` as a digit, or none
where the switch takes its `default` branch. -/
def digitValue (c : Nat) : Option Nat :=
  if 48 ≤ c ∧ c ≤ 57 then some (c - 48)
  else if 97 ≤ lower c ∧ lower c ≤ 122 then some (lower c - 97 + 10)
  else none

/-- The `for _, c := range []byte(s)` loop of `strconv.ParseUint`, over the
remaining bytes, with the accumulator `n` a `uint64`. -/
def parseUintLoop (base cutoff maxVal : Nat) : List Nat → Nat → Nat × Option NumError
  | [], n => (n, none)
  | c :: rest, n =>
    match digitValue c with
    | none => (0, some NumError.ErrSyntax)
    | some d =>
      if d ≥ base % 256 then
        (0, some NumError.ErrSyntax)
      else if n ≥ cutoff then
        (maxVal, some NumError.ErrRange)
      else
        let n10 := (n * base) % 2 ^ 64
        let n1 := (n10 + d) % 2 ^ 64
        if n1 < n10 ∨ n1 > maxVal then
          (maxVal, some NumError.ErrRange)
        else
          parseUintLoop base cutoff maxVal rest n1

/-- The call `strconv.ParseUint(s, 10, bitSize)`: the value and the error it
returns, after the function `ParseUint` of the Go standard library
(`strconv/atoi.go`).  The base is fixed to 10, the only base `main.go` passes,
so the prefix and underscore handling of base 0 is not entered; a bit size of
0 stands for `IntSize`, taken as 64. -/
def ParseUint (s : String) (bitSize : Nat) : Nat × Option NumError :=
  if s = "" then
    (0, some NumError.ErrSyntax)
  else
    let bitSize := if bitSize = 0 then 64 else bitSize
    if bitSize > 64 then
      (0, some NumError.ErrBitSize)
    else
      let cutoff := maxUint64 / 10 + 1
      let maxVal := (2 ^ bitSize % 2 ^ 64 + 2 ^ 64 - 1) % 2 ^ 64
      parseUintLoop 10 cutoff maxVal (goBytes s) 0

/-- The conversion `uint16(x)` of a `uint64`. -/
def toUint16 (x : Nat) : Nat := x % 2 ^ 16

/-! ## The process environment and `godotenv.Load` -/

/-- The process environment: the variables that are set, with their values. -/
abbrev Environ := List (String × String)

/-- The call `os.Getenv(key)`: the value of the variable, or the empty string
when the variable is not set. -/
def Getenv (env : Environ) (key : String) : String :=
  match env.lookup key with
  | some v => v
  | none => ""

/-- The call `os.Setenv(key, value)`. -/
def Setenv (env : Environ) (key value : String) : Environ :=
  (key, value) :: env.filter fun kv => kv.1 != key

/-- The call `godotenv.Load(filename)` with one file name, after the
functions `Load` and `loadFile` of godotenv (with `overload` false).  `readFile` is godotenv's `readFile`: it opens and parses
the file, and fails with the error of `os.Open` or of the parser.  On success
every key of the file that is not yet set in the environment is set; on
failure the environment is left as it was. -/
def Load (readFile : String → Except GoError (List (String × String)))
    (filename : String) (env : Environ) : Environ × Option GoError :=
  match readFile filename with
  | Except.error err => (env, some err)
  | Except.ok envMap =>
    let currentEnv := env.map Prod.fst
    (envMap.foldl
      (fun e kv => if kv.1 ∈ currentEnv then e else Setenv e kv.1 kv.2) env, none)

/-! ## ICE server descriptors and the configuration -/

/-- A Go slice: `none` is the nil slice, `some l` a slice with the elements `l`. -/
abbrev Slice (α : Type) := Option (List α)

/-- The elements a `range` over the slice visits, in order. -/
def Slice.elems {α : Type} : Slice α → List α
  | none => []
  | some l => l

/-- Modelled from the spec: the declaration of the type `IceServerInfo` is
missing from the source.  It has the `urls` sequence read by
`parseExternalIceServers` as `server.URLs` and the optional credential fields
(username and credential), which are carried without validation. -/
structure IceServerInfo where
  URLs : List String
  Username : String
  Credential : String
  deriving DecidableEq, Repr

/-- The type `Config`, with the fields the composite literal in `run` sets. -/
structure Config where
  Host : String
  Port : String
  TURNPort : String
  TURNRealm : String
  TURNSecret : String
  PublicHost : String
  PublicIp : String
  RelayPortMin : Nat
  RelayPortMax : Nat
  ExternalIceServers : Slice IceServerInfo
  deriving DecidableEq, Repr

/-! ## `parseExternalIceServers` -/

/-- What a call of `parseExternalIceServers` returns (`servers`, `err`),
together with the inputs it passed to `json.Unmarshal`, in order. -/
structure ParseOutcome where
  servers : Slice IceServerInfo
  err : Option GoError
  decodes : List String
  deriving DecidableEq, Repr

/-- The loop `for i, server := range servers` of `parseExternalIceServers`
over the remaining entries, `i` being the index of the first of them: the
error the loop returns with, or none when it runs to its end. -/
def rangeServers : List IceServerInfo → Nat → Option GoError
  | [], _ => none
  | server :: rest, i =>
    if server.URLs.length = 0 then
      some (GoError.leaf ("entry " ++ toString i ++ " has empty urls") false)
    else
      rangeServers rest (i + 1)

/-- The function `parseExternalIceServers`.  `Unmarshal raw` stands for
`json.Unmarshal([]byte(raw), &servers)` on a nil `servers`: it gives the
contents of `servers` after the call and the error returned. -/
def parseExternalIceServers (Unmarshal : String → Slice IceServerInfo × Option GoError)
    (raw : String) : ParseOutcome :=
  if raw = "" then
    ⟨none, none, []⟩
  else
    match Unmarshal raw with
    | (_, some err) => ⟨none, some err, [raw]⟩
    | (servers, none) =>
      match rangeServers servers.elems 0 with
      | some err => ⟨none, some err, [raw]⟩
      | none => ⟨servers, none, [raw]⟩

/-! ## `run` -/

/-- The collaborators of `run` that are outside `main.go`: the reading of an
env file by godotenv, `json.Unmarshal` into a list of ICE server descriptors,
and the server constructor `NewServer`. -/
structure Platform (Server : Type) where
  readFile : String → Except GoError (List (String × String))
  Unmarshal : String → Slice IceServerInfo × Option GoError
  NewServer : Config → Except GoError Server

/-- The calls `run` makes that reach outside it, as recorded in order. -/
inductive Call (Server : Type) where
  | Load (filename : String)
  | Unmarshal (raw : String)
  | NewServer (cfg : Config)
  | Fprintf (out : String)
  | GoStart (srv : Server)
  deriving DecidableEq

/-- Where `run` stands at the end of its sequential part: it has returned
the error `err`, or it has launched `srv.Start()` in a goroutine and waits
on `<-ctx.Done()`. -/
inductive Progress (Server : Type) where
  | returned (err : GoError)
  | waiting (cfg : Config) (srv : Server)
  deriving DecidableEq

/-- The state after the sequential part of `run`: the process environment,
the calls made so far, and where `run` stands. -/
structure Startup (Server : Type) where
  environ : Environ
  calls : List (Call Server)
  progress : Progress Server
  deriving DecidableEq

/-- The condition `err != nil && !os.IsNotExist(err)` on the result of a
load: the error when the condition holds. -/
def fatalLoad : Option GoError → Option GoError
  | some err => if IsNotExist err then none else some err
  | none => none

/-- The composite literal `Config{...}` of `run`, in the environment `env`,
with the values of the variables `relayPortMin` (a `uint64`), `relayPortMax`
(a `uint64`) and `externalIceServers`. -/
def makeConfig (env : Environ) (relayPortMin relayPortMax : Nat)
    (externalIceServers : Slice IceServerInfo) : Config :=
  { Host := Getenv env "HOST"
    Port := Getenv env "PORT"
    TURNPort := Getenv env "TURNPORT"
    TURNRealm := Getenv env "TURNREALM"
    TURNSecret := Getenv env "TURNSECRET"
    PublicHost := Getenv env "PUBLICHOST"
    PublicIp := Getenv env "PUBLICIP"
    RelayPortMin := toUint16 relayPortMin
    RelayPortMax := toUint16 relayPortMax
    ExternalIceServers := externalIceServers }

/-- The function `run`, from its start to the wait on `<-ctx.Done()`, in a
process whose environment is `env0`. -/
def run {Server : Type} (P : Platform Server) (env0 : Environ) : Startup Server :=
  match Load P.readFile "server/.env" env0 with
  | (env1, err1) =>
  match fatalLoad err1 with
  | some err =>
    ⟨env1, [Call.Load "server/.env"],
      Progress.returned (Errorf_w "failed to load server/.env file: " err)⟩
  | none =>
  match Load P.readFile ".env" env1 with
  | (env2, err2) =>
  match fatalLoad err2 with
  | some err =>
    ⟨env2, [Call.Load "server/.env", Call.Load ".env"],
      Progress.returned (Errorf_w "failed to load .env file: " err)⟩
  | none =>
  let relayPortMin := (ParseUint (Getenv env2 "RELAYPORTMIN") 16).1
  let relayPortMax := (ParseUint (Getenv env2 "RELAYPORTMAX") 16).1
  let parsed := parseExternalIceServers P.Unmarshal (Getenv env2 "EXTERNAL_ICE_SERVERS_JSON")
  let calls := [Call.Load "server/.env", Call.Load ".env"] ++ parsed.decodes.map Call.Unmarshal
  match parsed.err with
  | some err =>
    ⟨env2, calls,
      Progress.returned (Errorf_w "failed to parse EXTERNAL_ICE_SERVERS_JSON: " err)⟩
  | none =>
  let cfg := makeConfig env2 relayPortMin relayPortMax parsed.servers
  match P.NewServer cfg with
  | Except.error err =>
    ⟨env2, calls ++ [Call.NewServer cfg],
      Progress.returned (Errorf_w "failed to create server: " err)⟩
  | Except.ok srv =>
    ⟨env2,
      calls ++ [Call.NewServer cfg,
        Call.Fprintf ("Signaling server starting on PORT :" ++ cfg.Port ++ "\n"),
        Call.GoStart srv],
      Progress.waiting cfg srv⟩

/-- The configuration passed to `NewServer` by a call, when it is that call. -/
def Call.config {Server : Type} : Call Server → Option Config
  | Call.NewServer cfg => some cfg
  | _ => none

/-- The `Config` that `run` has built and passed to `NewServer`, if it got
that far. -/
def builtConfig {Server : Type} (st : Startup Server) : Option Config :=
  st.calls.findSome? Call.config

/-- The sequential part of `run` has ended with `run` returning an error
whose message is `pfx` followed by the message of `e` and which wraps `e`. -/
def failsWith {Server : Type} (st : Startup Server) (pfx : String) (e : GoError) : Prop :=
  ∃ err, st.progress = Progress.returned err ∧ err.Error = pfx ++ e.Error ∧
    err.Unwrap = some e

/-- The error of the first stage of `run`, the load of `server/.env`. -/
def firstLoadError {Server : Type} (P : Platform Server) (env0 : Environ) : Option GoError :=
  (Load P.readFile "server/.env" env0).2

/-- The environment after the first stage of `run`. -/
def firstLoadEnviron {Server : Type} (P : Platform Server) (env0 : Environ) : Environ :=
  (Load P.readFile "server/.env" env0).1

/-- The error of the second stage of `run`, the load of `.env`. -/
def secondLoadError {Server : Type} (P : Platform Server) (env0 : Environ) : Option GoError :=
  (Load P.readFile ".env" (firstLoadEnviron P env0)).2

/-- The environment after the two loads of `run`: the one in which `run`
reads its variables. -/
def loadedEnviron {Server : Type} (P : Platform Server) (env0 : Environ) : Environ :=
  (Load P.readFile ".env" (firstLoadEnviron P env0)).1

/-- Both env files load: neither load fails with an error other than
file-not-found. -/
def loadsSucceed {Server : Type} (P : Platform Server) (env0 : Environ) : Prop :=
  fatalLoad (firstLoadError P env0) = none ∧ fatalLoad (secondLoadError P env0) = none

/-- The third stage of `run`: the parse of `EXTERNAL_ICE_SERVERS_JSON` as read
after the loads. -/
def iceParse {Server : Type} (P : Platform Server) (env0 : Environ) : ParseOutcome :=
  parseExternalIceServers P.Unmarshal (Getenv (loadedEnviron P env0) "EXTERNAL_ICE_SERVERS_JSON")

/-- The `Config` literal of `run` as evaluated after the loads and the parse:
the configuration `run` passes to `NewServer` when it gets that far. -/
def candidateConfig {Server : Type} (P : Platform Server) (env0 : Environ) : Config :=
  makeConfig (loadedEnviron P env0)
    (ParseUint (Getenv (loadedEnviron P env0) "RELAYPORTMIN") 16).1
    (ParseUint (Getenv (loadedEnviron P env0) "RELAYPORTMAX") 16).1
    (iceParse P env0).servers

/-- The calls `run` has made when the parse of the ICE servers is over. -/
def callsToParse {Server : Type} (P : Platform Server) (env0 : Environ) : List (Call Server) :=
  [Call.Load "server/.env", Call.Load ".env"] ++ (iceParse P env0).decodes.map Call.Unmarshal

/-- The function `run` has gone past its two loads and on through the parse
of the ICE servers to `NewServer`: it reads its variables in the environment
left by the loads, it has made the calls up to the parse, and where it stands
is decided by the parse and by `NewServer` alone.  A parse error `e` makes it
return "failed to parse EXTERNAL_ICE_SERVERS_JSON: " with `e`; otherwise it
passes the `Config` literal to `NewServer`, and returns "failed to create
server: " with the error of `NewServer`, or waits with the server launched. -/
def reachesConfig {Server : Type} (P : Platform Server) (env0 : Environ) : Prop :=
  (run P env0).environ = loadedEnviron P env0 ∧
  callsToParse P env0 <+: (run P env0).calls ∧
  (∀ e, (iceParse P env0).err = some e →
    (run P env0).progress =
      Progress.returned (Errorf_w "failed to parse EXTERNAL_ICE_SERVERS_JSON: " e)) ∧
  ((iceParse P env0).err = none →
    builtConfig (run P env0) = some (candidateConfig P env0) ∧
    (∀ e, P.NewServer (candidateConfig P env0) = Except.error e →
      (run P env0).progress = Progress.returned (Errorf_w "failed to create server: " e)) ∧
    (∀ srv, P.NewServer (candidateConfig P env0) = Except.ok srv →
      (run P env0).progress = Progress.waiting (candidateConfig P env0) srv))

/-! ## The concurrent part of `run` -/

/-- The state of the process once `run` has launched `srv.Start()` and waits
on `<-ctx.Done()`: whether the context is cancelled, whether the goroutine
has finished, the lines written by `log.Printf`, and the value `run` has
returned, if it has returned (`some none` is a nil error). -/
structure Lifecycle where
  ctxDone : Bool
  startFinished : Bool
  logged : List String
  result : Option (Option GoError)
  deriving DecidableEq, Repr

/-- The events that can happen while `run` waits: the interrupt signal is
delivered, the parent context is cancelled, `srv.Start()` returns in its
goroutine with an error or nil, and the main goroutine gets to run. -/
inductive Event where
  | interrupt
  | parentCancel
  | startReturns (err : Option GoError)
  | mainRuns
  deriving DecidableEq, Repr

/-- Whether the event cancels the context `ctx` of `run`. -/
def Event.cancels : Event → Bool
  | Event.interrupt => true
  | Event.parentCancel => true
  | _ => false

/-- Whether the event is a return of `srv.Start()`. -/
def Event.isStartReturn : Event → Bool
  | Event.startReturns _ => true
  | _ => false

/-- The state `run` is in right after `go func() {...}()`. -/
def Lifecycle.start : Lifecycle := ⟨false, false, [], none⟩

/-- One step of the process.  The signal and the parent cancel `ctx`; the
goroutine logs the error of `srv.Start()` when it is not nil and ends; the
main goroutine returns nil from `run` once `ctx.Done()` is closed. -/
def Lifecycle.step (s : Lifecycle) : Event → Lifecycle
  | Event.interrupt => { s with ctxDone := true }
  | Event.parentCancel => { s with ctxDone := true }
  | Event.startReturns err =>
    if s.startFinished then s
    else
      match err with
      | some e => { s with startFinished := true,
                           logged := s.logged ++ ["Server error: " ++ e.Error] }
      | none => { s with startFinished := true }
  | Event.mainRuns =>
    if s.result.isSome then s
    else if s.ctxDone then { s with result := some none }
    else s

/-- The state after a sequence of events. -/
def Lifecycle.exec (s : Lifecycle) (evs : List Event) : Lifecycle :=
  evs.foldl Lifecycle.step s

/-- The value `run` has returned after the events `evs`, if it has returned:
the error of its sequential part, or what the wait on `<-ctx.Done()` gives. -/
def runResult {Server : Type} (P : Platform Server) (env0 : Environ) (evs : List Event) :
    Option (Option GoError) :=
  match (run P env0).progress with
  | Progress.returned err => some (some err)
  | Progress.waiting _ _ => (Lifecycle.start.exec evs).result

/-! ## Reference notions for the relay port variables -/

/-- Whether the byte `c` is an ASCII decimal digit. -/
def isDigitByte (c : Nat) : Bool := decide (48 ≤ c ∧ c ≤ 57)

/-- The number a sequence of ASCII digits denotes in base 10, read after a
number `n` already read. -/
def decimalFrom (n : Nat) (bs : List Nat) : Nat :=
  bs.foldl (fun acc c => acc * 10 + (c - 48)) n

/-- The number a sequence of ASCII digits denotes in base 10. -/
def decimalValue (bs : List Nat) : Nat := decimalFrom 0 bs

/-- The digits a byte sequence starts with, up to its first byte that is not
an ASCII digit. -/
def leadingDigits (bs : List Nat) : List Nat := bs.takeWhile isDigitByte

/-- A string that is a valid unsigned 16-bit decimal integer: not empty, made
of ASCII decimal digits only, and denoting a number that is at most 65535. -/
def validUint16 (s : String) : Bool :=
  !(goBytes s).isEmpty && (goBytes s).all isDigitByte && decide (decimalValue (goBytes s) ≤ 65535)

/-- The reference parse of a relay port variable in the words of the
specification: 0 for a missing (empty) value, the number denoted for a string
of ASCII decimal digits denoting a number n ≤ 65535, and 0 for a value with a
character that is not an ASCII digit.  It is none where those words say
nothing (digits denoting a number above 65535). -/
def referencePort (v : String) : Option Nat :=
  if v = "" then some 0
  else if (goBytes v).all isDigitByte then
    if decimalValue (goBytes v) ≤ 65535 then some (decimalValue (goBytes v)) else none
  else some 0

/-- The reference parse of a relay port variable that the code refines: as
`referencePort`, except that a value with a character that is not an ASCII
digit gives 65535 when the digits before its first such character denote a
number above 65535. -/
def referencePortAmended (v : String) : Option Nat :=
  if v = "" then some 0
  else if (goBytes v).all isDigitByte then
    if decimalValue (goBytes v) ≤ 65535 then some (decimalValue (goBytes v)) else none
  else if 65535 < decimalValue (leadingDigits (goBytes v)) then some 65535
  else some 0

/-! ## Sample collaborators -/

/-- The `readFile` of godotenv in a directory without env files: every open
fails with a file-not-found error. -/
def noEnvFiles : String → Except GoError (List (String × String)) :=
  fun filename =>
    Except.error (GoError.leaf ("open " ++ filename ++ ": no such file or directory") true)

/-- The error of godotenv on an env file that does not parse. -/
def malformedFile : GoError := GoError.leaf "unexpected character in variable name" false

/-- The error of `json.Unmarshal` on an input that is not JSON. -/
def malformedJSON : GoError := GoError.leaf "invalid character in literal null" false

/-- The error of a `NewServer` that rejects the configuration. -/
def rejectedConfig : GoError := GoError.leaf "invalid configuration" false

/-- The `readFile` of godotenv where the file `broken` exists and does not
parse, and no other env file exists. -/
def brokenEnvFile (broken : String) : String → Except GoError (List (String × String)) :=
  fun filename =>
    if filename = broken then Except.error malformedFile
    else noEnvFiles filename

/-- The results of `json.Unmarshal` on the inputs of the scenarios A, B and D
of the specification: one descriptor with one URL, one descriptor with an
empty `urls`, and a decode error on any other input. -/
def scenarioUnmarshal (raw : String) : Slice IceServerInfo × Option GoError :=
  if raw = "[\x7b\"urls\":[\"stun:a.example\"]\x7d]" then
    (some [⟨["stun:a.example"], "", ""⟩], none)
  else if raw = "[\x7b\"urls\":[]\x7d]" then
    (some [⟨[], "", ""⟩], none)
  else
    (none, some malformedJSON)

/-- A platform without env files, whose `NewServer` accepts every
configuration. -/
def ambientOnly : Platform Unit :=
  ⟨noEnvFiles, scenarioUnmarshal, fun _ => Except.ok ()⟩

/-- A platform where the env file `broken` does not parse. -/
def brokenPlatform (broken : String) : Platform Unit :=
  ⟨brokenEnvFile broken, scenarioUnmarshal, fun _ => Except.ok ()⟩

/-- The `readFile` of godotenv where only the file `present` exists, with the
variables `vars`. -/
def oneEnvFile (present : String) (vars : List (String × String)) :
    String → Except GoError (List (String × String)) :=
  fun filename => if filename = present then Except.ok vars else noEnvFiles filename

/-- A platform where `server/.env` is missing and `.env` sets `PORT`. -/
def onlyRootEnv : Platform Unit :=
  ⟨oneEnvFile ".env" [("PORT", "9000")], scenarioUnmarshal, fun _ => Except.ok ()⟩

/-- A platform where `.env` is missing and `server/.env` sets `HOST`. -/
def onlyServerEnv : Platform Unit :=
  ⟨oneEnvFile "server/.env" [("HOST", "10.0.0.1")], scenarioUnmarshal, fun _ => Except.ok ()⟩

/-- A platform without env files, whose `NewServer` rejects every
configuration. -/
def rejectingPlatform : Platform Unit :=
  ⟨noEnvFiles, scenarioUnmarshal, fun _ => Except.error rejectedConfig⟩

end Main

namespace Main

/-! ## Properties of `strconv.ParseUint` -/

theorem decimalFrom_cons (n c : Nat) (bs : List Nat) :
    decimalFrom n (c :: bs) = decimalFrom (n * 10 + (c - 48)) bs := rfl

theorem le_decimalFrom (bs : List Nat) : ∀ n : Nat, n ≤ decimalFrom n bs := by
  induction bs with
  | nil => intro n; exact Nat.le_refl n
  | cons c rest ih =>
    intro n
    rw [decimalFrom_cons]
    exact Nat.le_trans (by omega) (ih (n * 10 + (c - 48)))

theorem digitValue_of_digit {c : Nat} (h : isDigitByte c = true) :
    digitValue c = some (c - 48) := by
  simp only [isDigitByte, decide_eq_true_eq] at h
  simp [digitValue, h]

theorem digitValue_of_not_digit {c : Nat} (h : isDigitByte c = false) :
    digitValue c = none ∨ ∃ d, digitValue c = some d ∧ 10 ≤ d := by
  simp only [isDigitByte, decide_eq_false_iff_not] at h
  unfold digitValue
  rw [if_neg h]
  by_cases hl : 97 ≤ lower c ∧ lower c ≤ 122
  · right
    exact ⟨lower c - 97 + 10, by rw [if_pos hl], by omega⟩
  · left
    rw [if_neg hl]

theorem parseUintLoop_not_digit {c : Nat} (h : isDigitByte c = false)
    (cutoff maxVal : Nat) (rest : List Nat) (n : Nat) :
    parseUintLoop 10 cutoff maxVal (c :: rest) n = (0, some NumError.ErrSyntax) := by
  rcases digitValue_of_not_digit h with h0 | ⟨d, hd, hge⟩
  · simp [parseUintLoop, h0]
  · have : 10 % 256 ≤ d := by omega
    simp [parseUintLoop, hd, this]

/-- The value the digit loop returns, for base 10 and 16 bits, from an
accumulator within range. -/
theorem parseUintLoop_value (bs : List Nat) : ∀ n : Nat, n ≤ 65535 →
    (parseUintLoop 10 (maxUint64 / 10 + 1) 65535 bs n).1 =
      if 65535 < decimalFrom n (leadingDigits bs) then 65535
      else if bs.all isDigitByte = true then decimalFrom n bs else 0 := by
  induction bs with
  | nil =>
    intro n hn
    have : ¬ 65535 < n := by omega
    simp [parseUintLoop, leadingDigits, decimalFrom, this]
  | cons c rest ih =>
    intro n hn
    by_cases hc : isDigitByte c = true
    · have hd := digitValue_of_digit hc
      have hc2 : 48 ≤ c ∧ c ≤ 57 := by simpa [isDigitByte] using hc
      have hlead : leadingDigits (c :: rest) = c :: leadingDigits rest := by
        simp [leadingDigits, List.takeWhile, hc]
      have hcut : ¬ n ≥ maxUint64 / 10 + 1 := by
        simp only [maxUint64]; omega
      have h10 : (n * 10) % 2 ^ 64 = n * 10 := Nat.mod_eq_of_lt (by omega)
      have h1 : (n * 10 + (c - 48)) % 2 ^ 64 = n * 10 + (c - 48) :=
        Nat.mod_eq_of_lt (by omega)
      have hbase : ¬ (c - 48 ≥ 10 % 256) := by omega
      rw [hlead, decimalFrom_cons, decimalFrom_cons]
      unfold parseUintLoop
      simp only [hd, hbase, hcut, if_false, h10, h1]
      by_cases hov : n * 10 + (c - 48) > 65535
      · have hge := le_decimalFrom (leadingDigits rest) (n * 10 + (c - 48))
        have : 65535 < decimalFrom (n * 10 + (c - 48)) (leadingDigits rest) := by omega
        simp [hov, this]
      · have hno : ¬ (n * 10 + (c - 48) < n * 10 ∨ n * 10 + (c - 48) > 65535) := by omega
        rw [if_neg hno, ih _ (by omega)]
        simp [List.all_cons, hc]
    · have hc0 : isDigitByte c = false := by simpa using hc
      have hn2 : ¬ 65535 < n := by omega
      rw [parseUintLoop_not_digit hc0]
      simp [leadingDigits, List.takeWhile, hc0, decimalFrom, hn2]

theorem goBytes_empty : goBytes "" = [] := rfl

/-- The value `strconv.ParseUint(s, 10, 16)` returns, for every string. -/
theorem ParseUint16_value (s : String) :
    (ParseUint s 16).1 =
      if 65535 < decimalValue (leadingDigits (goBytes s)) then 65535
      else if (goBytes s).all isDigitByte = true then decimalValue (goBytes s) else 0 := by
  by_cases hs : s = ""
  · subst hs
    simp [ParseUint, goBytes_empty, decimalValue, decimalFrom, leadingDigits]
  · have hmax : (2 ^ 16 % 2 ^ 64 + 2 ^ 64 - 1) % 2 ^ 64 = 65535 := by norm_num
    simp only [ParseUint, hs, if_false]
    have h := parseUintLoop_value (goBytes s) 0 (by omega)
    simpa [hmax, decimalValue] using h

/-! ## The stages of `run` -/

theorem run_firstLoad_fatal {Server : Type} (P : Platform Server) (env0 : Environ)
    {e : GoError} (h : fatalLoad (firstLoadError P env0) = some e) :
    run P env0 = ⟨firstLoadEnviron P env0, [Call.Load "server/.env"],
      Progress.returned (Errorf_w "failed to load server/.env file: " e)⟩ := by
  unfold firstLoadError at h
  unfold run firstLoadEnviron
  rcases hL : Load P.readFile "server/.env" env0 with ⟨env1, err1⟩
  rw [hL] at h
  simp only [h]

theorem run_secondLoad_fatal {Server : Type} (P : Platform Server) (env0 : Environ)
    {e : GoError} (h1 : fatalLoad (firstLoadError P env0) = none)
    (h2 : fatalLoad (secondLoadError P env0) = some e) :
    run P env0 = ⟨loadedEnviron P env0, [Call.Load "server/.env", Call.Load ".env"],
      Progress.returned (Errorf_w "failed to load .env file: " e)⟩ := by
  unfold secondLoadError firstLoadEnviron at h2
  unfold firstLoadError at h1
  unfold run loadedEnviron firstLoadEnviron
  rcases hL : Load P.readFile "server/.env" env0 with ⟨env1, err1⟩
  rw [hL] at h1 h2
  simp only at h1 h2 ⊢
  rcases hL2 : Load P.readFile ".env" env1 with ⟨env2, err2⟩
  rw [hL2] at h2
  simp only [h1, h2]

theorem run_parse_error {Server : Type} (P : Platform Server) (env0 : Environ)
    {e : GoError} (hl : loadsSucceed P env0)
    (hp : (iceParse P env0).err = some e) :
    run P env0 = ⟨loadedEnviron P env0, callsToParse P env0,
      Progress.returned (Errorf_w "failed to parse EXTERNAL_ICE_SERVERS_JSON: " e)⟩ := by
  obtain ⟨h1, h2⟩ := hl
  unfold callsToParse
  unfold iceParse at hp ⊢
  unfold secondLoadError at h2
  unfold loadedEnviron at hp ⊢
  unfold firstLoadEnviron at h2 hp ⊢
  unfold firstLoadError at h1
  unfold run
  rcases hL : Load P.readFile "server/.env" env0 with ⟨env1, err1⟩
  rw [hL] at h1 h2 hp
  simp only at h1 h2 hp ⊢
  rcases hL2 : Load P.readFile ".env" env1 with ⟨env2, err2⟩
  rw [hL2] at h2 hp
  simp only at h2 hp ⊢
  simp only [h1, h2, hp]

theorem run_newServer_error {Server : Type} (P : Platform Server) (env0 : Environ)
    {e : GoError} (hl : loadsSucceed P env0)
    (hp : (iceParse P env0).err = none)
    (hn : P.NewServer (candidateConfig P env0) = Except.error e) :
    run P env0 = ⟨loadedEnviron P env0,
      callsToParse P env0 ++ [Call.NewServer (candidateConfig P env0)],
      Progress.returned (Errorf_w "failed to create server: " e)⟩ := by
  obtain ⟨h1, h2⟩ := hl
  unfold candidateConfig at hn ⊢
  unfold callsToParse
  unfold iceParse at hp hn ⊢
  unfold secondLoadError at h2
  unfold loadedEnviron at hp hn ⊢
  unfold firstLoadEnviron at h2 hp hn ⊢
  unfold firstLoadError at h1
  unfold run
  rcases hL : Load P.readFile "server/.env" env0 with ⟨env1, err1⟩
  rw [hL] at h1 h2 hp hn
  simp only at h1 h2 hp hn ⊢
  rcases hL2 : Load P.readFile ".env" env1 with ⟨env2, err2⟩
  rw [hL2] at h2 hp hn
  simp only at h2 hp hn ⊢
  simp only [h1, h2, hp, hn]

theorem run_newServer_ok {Server : Type} (P : Platform Server) (env0 : Environ)
    {srv : Server} (hl : loadsSucceed P env0)
    (hp : (iceParse P env0).err = none)
    (hn : P.NewServer (candidateConfig P env0) = Except.ok srv) :
    run P env0 = ⟨loadedEnviron P env0,
      callsToParse P env0 ++ [Call.NewServer (candidateConfig P env0),
        Call.Fprintf ("Signaling server starting on PORT :" ++
          (candidateConfig P env0).Port ++ "\n"),
        Call.GoStart srv],
      Progress.waiting (candidateConfig P env0) srv⟩ := by
  obtain ⟨h1, h2⟩ := hl
  unfold candidateConfig at hn ⊢
  unfold callsToParse
  unfold iceParse at hp hn ⊢
  unfold secondLoadError at h2
  unfold loadedEnviron at hp hn ⊢
  unfold firstLoadEnviron at h2 hp hn ⊢
  unfold firstLoadError at h1
  unfold run
  rcases hL : Load P.readFile "server/.env" env0 with ⟨env1, err1⟩
  rw [hL] at h1 h2 hp hn
  simp only at h1 h2 hp hn ⊢
  rcases hL2 : Load P.readFile ".env" env1 with ⟨env2, err2⟩
  rw [hL2] at h2 hp hn
  simp only at h2 hp hn ⊢
  simp only [h1, h2, hp, hn]

/-! ## `parseExternalIceServers` -/

theorem rangeServers_first_empty (pre : List IceServerInfo) (bad : IceServerInfo)
    (post : List IceServerInfo) (hpre : ∀ x ∈ pre, x.URLs ≠ []) (hbad : bad.URLs = []) :
    ∀ i : Nat, rangeServers (pre ++ bad :: post) i =
      some (GoError.leaf ("entry " ++ toString (i + pre.length) ++ " has empty urls") false) := by
  induction pre with
  | nil =>
    intro i
    simp [rangeServers, hbad]
  | cons x rest ih =>
    intro i
    have hx : x.URLs.length ≠ 0 := by
      have := hpre x (List.mem_cons_self x rest)
      simpa [List.length_eq_zero] using this
    have hrest : ∀ y ∈ rest, y.URLs ≠ [] := fun y hy => hpre y (List.mem_cons_of_mem x hy)
    have hstep : rangeServers (x :: (rest ++ bad :: post)) i =
        rangeServers (rest ++ bad :: post) (i + 1) := by
      simp only [rangeServers, hx, if_false]
    have hlen : i + 1 + rest.length = i + (x :: rest).length := by
      simp only [List.length_cons]; omega
    rw [List.cons_append, hstep, ih hrest (i + 1), hlen]

theorem rangeServers_all_nonempty (l : List IceServerInfo) (h : ∀ x ∈ l, x.URLs ≠ []) :
    ∀ i : Nat, rangeServers l i = none := by
  induction l with
  | nil => intro i; rfl
  | cons x rest ih =>
    intro i
    have hx : x.URLs.length ≠ 0 := by
      have := h x (List.mem_cons_self x rest)
      simpa [List.length_eq_zero] using this
    simp only [rangeServers, hx, if_false]
    exact ih (fun y hy => h y (List.mem_cons_of_mem x hy)) (i + 1)

/-- C1: when the input decodes without error to a list whose entries before
index `pre.length` all have URLs and whose entry at that index has none,
`parseExternalIceServers` returns a nil list and the error "entry i has empty
urls" for that index i, whatever the entries after it are.  The input is not
the empty string, which is no JSON text and is never handed to the decoder. -/
theorem parseExternalIceServers_empty_urls
    (Unmarshal : String → Slice IceServerInfo × Option GoError) (raw : String)
    (servers : Slice IceServerInfo) (pre : List IceServerInfo) (bad : IceServerInfo)
    (post : List IceServerInfo)
    (hraw : raw ≠ "") (hdec : Unmarshal raw = (servers, none))
    (hsplit : servers.elems = pre ++ bad :: post)
    (hpre : ∀ x ∈ pre, x.URLs ≠ []) (hbad : bad.URLs = []) :
    parseExternalIceServers Unmarshal raw =
      ⟨none,
        some (GoError.leaf ("entry " ++ toString pre.length ++ " has empty urls") false),
        [raw]⟩ := by
  have h := rangeServers_first_empty pre bad post hpre hbad 0
  rw [← hsplit, Nat.zero_add] at h
  simp only [parseExternalIceServers, hraw, if_false, hdec, h]

theorem parseExternalIceServers_empty_urls_witness :
    parseExternalIceServers scenarioUnmarshal "[\x7b\"urls\":[]\x7d]" =
      ⟨none, some (GoError.leaf "entry 0 has empty urls" false), ["[\x7b\"urls\":[]\x7d]"]⟩ :=
  parseExternalIceServers_empty_urls scenarioUnmarshal "[\x7b\"urls\":[]\x7d]"
    (some [⟨[], "", ""⟩]) [] ⟨[], "", ""⟩ [] (by decide) (by decide) rfl
    (fun _ h => absurd h (List.not_mem_nil _)) rfl

/-- C3: when the input decodes without error to a list whose entries all have
at least one URL, `parseExternalIceServers` returns exactly the decoded list,
entries and fields unchanged and in order, with a nil error.  The input is not
the empty string, which is no JSON text and is never handed to the decoder. -/
theorem parseExternalIceServers_valid
    (Unmarshal : String → Slice IceServerInfo × Option GoError) (raw : String)
    (servers : Slice IceServerInfo)
    (hraw : raw ≠ "") (hdec : Unmarshal raw = (servers, none))
    (hall : ∀ x ∈ servers.elems, x.URLs ≠ []) :
    parseExternalIceServers Unmarshal raw = ⟨servers, none, [raw]⟩ := by
  have h := rangeServers_all_nonempty servers.elems hall 0
  simp only [parseExternalIceServers, hraw, if_false, hdec, h]

theorem parseExternalIceServers_valid_witness :
    parseExternalIceServers scenarioUnmarshal "[\x7b\"urls\":[\"stun:a.example\"]\x7d]" =
      ⟨some [⟨["stun:a.example"], "", ""⟩], none,
        ["[\x7b\"urls\":[\"stun:a.example\"]\x7d]"]⟩ :=
  parseExternalIceServers_valid scenarioUnmarshal
    "[\x7b\"urls\":[\"stun:a.example\"]\x7d]" (some [⟨["stun:a.example"], "", ""⟩])
    (by decide) (by decide) (by decide)

theorem parseExternalIceServers_err_servers
    (Unmarshal : String → Slice IceServerInfo × Option GoError) (raw : String)
    (h : (parseExternalIceServers Unmarshal raw).err ≠ none) :
    (parseExternalIceServers Unmarshal raw).servers = none := by
  unfold parseExternalIceServers at h ⊢
  split
  · rfl
  · split
    · rfl
    · split
      · rfl
      · rename_i h1 h2 h3 h4 h5
        simp [*] at h

/-- C4: when the decoding of a non-empty input fails with the error `e`,
`parseExternalIceServers` returns a nil list and the error `e` itself,
whatever the decoder left in the list; and no input at all makes it return a
list other than nil together with an error. -/
theorem parseExternalIceServers_decode_error
    (Unmarshal : String → Slice IceServerInfo × Option GoError) (raw : String)
    (partialServers : Slice IceServerInfo) (e : GoError)
    (hraw : raw ≠ "") (hdec : Unmarshal raw = (partialServers, some e)) :
    parseExternalIceServers Unmarshal raw = ⟨none, some e, [raw]⟩ ∧
      ∀ raw2 : String, (parseExternalIceServers Unmarshal raw2).err ≠ none →
        (parseExternalIceServers Unmarshal raw2).servers = none := by
  refine ⟨?_, fun raw2 h => parseExternalIceServers_err_servers Unmarshal raw2 h⟩
  simp only [parseExternalIceServers, hraw, if_false, hdec]

theorem parseExternalIceServers_decode_error_witness :
    parseExternalIceServers scenarioUnmarshal "not json" =
      ⟨none, some malformedJSON, ["not json"]⟩ :=
  (parseExternalIceServers_decode_error scenarioUnmarshal "not json" none
    malformedJSON (by decide) (by decide)).1

/-- C5: on the empty string `parseExternalIceServers` returns a nil list and a
nil error and makes no call of `json.Unmarshal`, whatever the decoder is. -/
theorem parseExternalIceServers_of_empty_string
    (Unmarshal : String → Slice IceServerInfo × Option GoError) :
    parseExternalIceServers Unmarshal "" = ⟨none, none, []⟩ := by
  simp [parseExternalIceServers]

/-! ## Error handling of `run` -/

theorem failsWith_Errorf {Server : Type} (st : Startup Server) (pfx : String) (e : GoError)
    (h : st.progress = Progress.returned (Errorf_w pfx e)) : failsWith st pfx e :=
  ⟨Errorf_w pfx e, h, rfl, rfl⟩

theorem fatalLoad_of_not_exist_false {e : GoError} (h : IsNotExist e = false) :
    fatalLoad (some e) = some e := by
  simp [fatalLoad, h]

theorem fatalLoad_of_not_exist {e : GoError} (h : IsNotExist e = true) :
    fatalLoad (some e) = none := by
  simp [fatalLoad, h]

theorem newServer_not_mem_callsToParse {Server : Type} (P : Platform Server) (env0 : Environ)
    (cfg : Config) : Call.NewServer cfg ∉ callsToParse P env0 := by
  simp [callsToParse]

theorem goStart_not_mem_callsToParse {Server : Type} (P : Platform Server) (env0 : Environ)
    (srv : Server) : Call.GoStart srv ∉ callsToParse P env0 := by
  simp [callsToParse]

/-- C7: `run` fails fast with context.  A load of `server/.env` that fails
with an error `e` other than file-not-found makes `run` return an error with
the message "failed to load server/.env file: " followed by the message of
`e`, after that one call; likewise for `.env`, for the parse of
`EXTERNAL_ICE_SERVERS_JSON` (then `NewServer` is not called and `Start` is not
launched) and for `NewServer` (then `Start` is not launched). -/
theorem run_fail_fast {Server : Type} (P : Platform Server) (env0 : Environ) :
    (∀ e, firstLoadError P env0 = some e → IsNotExist e = false →
      failsWith (run P env0) "failed to load server/.env file: " e ∧
      (run P env0).calls = [Call.Load "server/.env"]) ∧
    (fatalLoad (firstLoadError P env0) = none →
      ∀ e, secondLoadError P env0 = some e → IsNotExist e = false →
        failsWith (run P env0) "failed to load .env file: " e ∧
        (run P env0).calls = [Call.Load "server/.env", Call.Load ".env"]) ∧
    (loadsSucceed P env0 → ∀ e, (iceParse P env0).err = some e →
      failsWith (run P env0) "failed to parse EXTERNAL_ICE_SERVERS_JSON: " e ∧
      (∀ cfg, Call.NewServer cfg ∉ (run P env0).calls) ∧
      (∀ srv, Call.GoStart srv ∉ (run P env0).calls)) ∧
    (loadsSucceed P env0 → (iceParse P env0).err = none →
      ∀ e, P.NewServer (candidateConfig P env0) = Except.error e →
        failsWith (run P env0) "failed to create server: " e ∧
        (∀ srv, Call.GoStart srv ∉ (run P env0).calls)) := by
  refine ⟨?_, ?_, ?_, ?_⟩
  · intro e he hne
    have h := run_firstLoad_fatal P env0 (by rw [he]; exact fatalLoad_of_not_exist_false hne)
    exact ⟨failsWith_Errorf _ _ _ (by rw [h]), by rw [h]⟩
  · intro h1 e he hne
    have h := run_secondLoad_fatal P env0 h1
      (by rw [he]; exact fatalLoad_of_not_exist_false hne)
    exact ⟨failsWith_Errorf _ _ _ (by rw [h]), by rw [h]⟩
  · intro hl e he
    have h := run_parse_error P env0 hl he
    refine ⟨failsWith_Errorf _ _ _ (by rw [h]), ?_, ?_⟩
    · intro cfg
      rw [h]
      exact newServer_not_mem_callsToParse P env0 cfg
    · intro srv
      rw [h]
      exact goStart_not_mem_callsToParse P env0 srv
  · intro hl hp e he
    have h := run_newServer_error P env0 hl hp he
    refine ⟨failsWith_Errorf _ _ _ (by rw [h]), ?_⟩
    intro srv
    rw [h]
    have := goStart_not_mem_callsToParse P env0 srv
    simpa using this

theorem run_fail_fast_witness :
    (failsWith (run (brokenPlatform "server/.env") [])
        "failed to load server/.env file: " malformedFile ∧
      (run (brokenPlatform "server/.env") []).calls = [Call.Load "server/.env"]) ∧
    (failsWith (run (brokenPlatform ".env") []) "failed to load .env file: " malformedFile ∧
      (run (brokenPlatform ".env") []).calls = [Call.Load "server/.env", Call.Load ".env"]) ∧
    (failsWith (run ambientOnly [("EXTERNAL_ICE_SERVERS_JSON", "not json")])
        "failed to parse EXTERNAL_ICE_SERVERS_JSON: " malformedJSON ∧
      (∀ cfg, Call.NewServer cfg ∉
        (run ambientOnly [("EXTERNAL_ICE_SERVERS_JSON", "not json")]).calls) ∧
      (∀ srv, Call.GoStart srv ∉
        (run ambientOnly [("EXTERNAL_ICE_SERVERS_JSON", "not json")]).calls)) ∧
    (failsWith (run rejectingPlatform []) "failed to create server: " rejectedConfig ∧
      (∀ srv, Call.GoStart srv ∉ (run rejectingPlatform []).calls)) :=
  ⟨(run_fail_fast (brokenPlatform "server/.env") []).1 malformedFile (by decide) (by decide),
    (run_fail_fast (brokenPlatform ".env") []).2.1 (by decide) malformedFile
      (by decide) (by decide),
    (run_fail_fast ambientOnly [("EXTERNAL_ICE_SERVERS_JSON", "not json")]).2.2.1
      ⟨by decide, by decide⟩ malformedJSON (by decide),
    (run_fail_fast rejectingPlatform []).2.2.2 ⟨by decide, by decide⟩ (by decide)
      rejectedConfig rfl⟩

/-! ## Missing env files -/

theorem Load_of_error (readFile : String → Except GoError (List (String × String)))
    (filename : String) (env : Environ) {e : GoError}
    (h : readFile filename = Except.error e) :
    Load readFile filename env = (env, some e) := by
  simp [Load, h]

theorem builtConfig_run {Server : Type} (P : Platform Server) (env0 : Environ)
    (hl : loadsSucceed P env0) (hp : (iceParse P env0).err = none) :
    builtConfig (run P env0) = some (candidateConfig P env0) := by
  have hnone : List.findSome? Call.config (callsToParse P env0) = none := by
    simp [callsToParse, Call.config]
  rcases hn : P.NewServer (candidateConfig P env0) with e | srv
  · rw [run_newServer_error P env0 hl hp hn]
    simp [builtConfig, List.findSome?_append, hnone, Call.config]
  · rw [run_newServer_ok P env0 hl hp hn]
    simp [builtConfig, List.findSome?_append, hnone, Call.config]

theorem callsToParse_prefix_run {Server : Type} (P : Platform Server) (env0 : Environ)
    (hl : loadsSucceed P env0) : callsToParse P env0 <+: (run P env0).calls := by
  rcases hp : (iceParse P env0).err with _ | e
  · rcases hn : P.NewServer (candidateConfig P env0) with e | srv
    · rw [run_newServer_error P env0 hl hp hn]
      exact List.prefix_append _ _
    · rw [run_newServer_ok P env0 hl hp hn]
      exact List.prefix_append _ _
  · rw [run_parse_error P env0 hl hp]

theorem loads_prefix_callsToParse {Server : Type} (P : Platform Server) (env0 : Environ) :
    [Call.Load "server/.env", Call.Load ".env"] <+: callsToParse P env0 :=
  List.prefix_append _ _

theorem reachesConfig_of_loads {Server : Type} (P : Platform Server) (env0 : Environ)
    (hl : loadsSucceed P env0) : reachesConfig P env0 := by
  refine ⟨?_, callsToParse_prefix_run P env0 hl, ?_, ?_⟩
  · rcases hp : (iceParse P env0).err with _ | e
    · rcases hn : P.NewServer (candidateConfig P env0) with e | srv
      · rw [run_newServer_error P env0 hl hp hn]
      · rw [run_newServer_ok P env0 hl hp hn]
    · rw [run_parse_error P env0 hl hp]
  · intro e hp
    rw [run_parse_error P env0 hl hp]
  · intro hp
    refine ⟨builtConfig_run P env0 hl hp, ?_, ?_⟩
    · intro e hn
      rw [run_newServer_error P env0 hl hp hn]
    · intro srv hn
      rw [run_newServer_ok P env0 hl hp hn]

/-- C9: a missing env file is not an error.  When the load of `server/.env`
fails with file-not-found, `run` leaves the environment as it was and goes on
to load `.env`: it returns the `.env` error when that load is fatal, and
otherwise goes on through the parse of the ICE servers to `NewServer`, its
result being decided by those two alone.  When the load of `.env` fails with
file-not-found (the first load not being fatal), `run` likewise goes on
through the parse to `NewServer`.  When both files are missing, the variables
are read in the ambient environment `env0`, and the `Config` passed to
`NewServer` when the ICE JSON parses has each string field equal to the
ambient value of its variable and `ExternalIceServers` equal to the parse of
`EXTERNAL_ICE_SERVERS_JSON`. -/
theorem run_missing_env_files {Server : Type} (P : Platform Server) (env0 : Environ) :
    (∀ e, P.readFile "server/.env" = Except.error e → IsNotExist e = true →
      fatalLoad (firstLoadError P env0) = none ∧ firstLoadEnviron P env0 = env0 ∧
      (fatalLoad (secondLoadError P env0) = none →
          [Call.Load "server/.env", Call.Load ".env"] <+: (run P env0).calls ∧
          reachesConfig P env0) ∧
      (∀ e2, fatalLoad (secondLoadError P env0) = some e2 →
          (run P env0).calls = [Call.Load "server/.env", Call.Load ".env"] ∧
          (run P env0).progress =
            Progress.returned (Errorf_w "failed to load .env file: " e2))) ∧
    (∀ e, P.readFile ".env" = Except.error e → IsNotExist e = true →
      fatalLoad (firstLoadError P env0) = none →
        loadsSucceed P env0 ∧ loadedEnviron P env0 = firstLoadEnviron P env0 ∧
        callsToParse P env0 <+: (run P env0).calls ∧
        reachesConfig P env0) ∧
    (∀ e1 e2, P.readFile "server/.env" = Except.error e1 → IsNotExist e1 = true →
      P.readFile ".env" = Except.error e2 → IsNotExist e2 = true →
        (run P env0).environ = env0 ∧
        loadedEnviron P env0 = env0 ∧
        reachesConfig P env0 ∧
        ((parseExternalIceServers P.Unmarshal
            (Getenv env0 "EXTERNAL_ICE_SERVERS_JSON")).err = none →
          ∃ cfg, builtConfig (run P env0) = some cfg ∧
            cfg.Host = Getenv env0 "HOST" ∧ cfg.Port = Getenv env0 "PORT" ∧
            cfg.TURNPort = Getenv env0 "TURNPORT" ∧ cfg.TURNRealm = Getenv env0 "TURNREALM" ∧
            cfg.TURNSecret = Getenv env0 "TURNSECRET" ∧
            cfg.PublicHost = Getenv env0 "PUBLICHOST" ∧
            cfg.PublicIp = Getenv env0 "PUBLICIP" ∧
            cfg.ExternalIceServers =
              (parseExternalIceServers P.Unmarshal
                (Getenv env0 "EXTERNAL_ICE_SERVERS_JSON")).servers)) := by
  refine ⟨?_, ?_, ?_⟩
  · intro e he hne
    have hL := Load_of_error P.readFile "server/.env" env0 he
    have h1 : fatalLoad (firstLoadError P env0) = none := by
      simp only [firstLoadError, hL]
      exact fatalLoad_of_not_exist hne
    refine ⟨h1, by simp only [firstLoadEnviron, hL], ?_, ?_⟩
    · intro h2
      exact ⟨List.IsPrefix.trans (loads_prefix_callsToParse P env0)
        (callsToParse_prefix_run P env0 ⟨h1, h2⟩), reachesConfig_of_loads P env0 ⟨h1, h2⟩⟩
    · intro e2 h2
      rw [run_secondLoad_fatal P env0 h1 h2]
      exact ⟨rfl, rfl⟩
  · intro e he hne h1
    have hL := Load_of_error P.readFile ".env" (firstLoadEnviron P env0) he
    have h2 : fatalLoad (secondLoadError P env0) = none := by
      simp only [secondLoadError, hL]
      exact fatalLoad_of_not_exist hne
    exact ⟨⟨h1, h2⟩, by simp only [loadedEnviron, hL], callsToParse_prefix_run P env0 ⟨h1, h2⟩,
      reachesConfig_of_loads P env0 ⟨h1, h2⟩⟩
  · intro e1 e2 he1 hne1 he2 hne2
    have hL1 := Load_of_error P.readFile "server/.env" env0 he1
    have henv1 : firstLoadEnviron P env0 = env0 := by simp only [firstLoadEnviron, hL1]
    have hL2 := Load_of_error P.readFile ".env" env0 he2
    have henv2 : loadedEnviron P env0 = env0 := by simp only [loadedEnviron, henv1, hL2]
    have h1 : fatalLoad (firstLoadError P env0) = none := by
      simp only [firstLoadError, hL1]
      exact fatalLoad_of_not_exist hne1
    have h2 : fatalLoad (secondLoadError P env0) = none := by
      simp only [secondLoadError, henv1, hL2]
      exact fatalLoad_of_not_exist hne2
    have hice : iceParse P env0 =
        parseExternalIceServers P.Unmarshal (Getenv env0 "EXTERNAL_ICE_SERVERS_JSON") := by
      simp only [iceParse, henv2]
    have hreach := reachesConfig_of_loads P env0 ⟨h1, h2⟩
    refine ⟨by rw [hreach.1, henv2], henv2, hreach, ?_⟩
    intro hp
    rw [← hice] at hp ⊢
    refine ⟨candidateConfig P env0, builtConfig_run P env0 ⟨h1, h2⟩ hp, ?_⟩
    simp only [candidateConfig, makeConfig, henv2, and_self]

theorem run_missing_env_files_witness :
    ((run onlyRootEnv [("HOST", "0.0.0.0")]).progress =
        Progress.waiting (candidateConfig onlyRootEnv [("HOST", "0.0.0.0")]) () ∧
      builtConfig (run onlyRootEnv [("HOST", "0.0.0.0")]) =
        some (candidateConfig onlyRootEnv [("HOST", "0.0.0.0")]) ∧
      (candidateConfig onlyRootEnv [("HOST", "0.0.0.0")]).Host = "0.0.0.0" ∧
      (candidateConfig onlyRootEnv [("HOST", "0.0.0.0")]).Port = "9000") ∧
    ((run onlyServerEnv [("PORT", "8080")]).progress =
        Progress.waiting (candidateConfig onlyServerEnv [("PORT", "8080")]) () ∧
      builtConfig (run onlyServerEnv [("PORT", "8080")]) =
        some (candidateConfig onlyServerEnv [("PORT", "8080")]) ∧
      (candidateConfig onlyServerEnv [("PORT", "8080")]).Host = "10.0.0.1" ∧
      (candidateConfig onlyServerEnv [("PORT", "8080")]).Port = "8080") ∧
    ((run ambientOnly [("HOST", "0.0.0.0"), ("PORT", "8080")]).environ =
        [("HOST", "0.0.0.0"), ("PORT", "8080")] ∧
      (run ambientOnly [("HOST", "0.0.0.0"), ("PORT", "8080")]).progress =
        Progress.waiting (candidateConfig ambientOnly [("HOST", "0.0.0.0"), ("PORT", "8080")]) () ∧
      ∃ cfg, builtConfig (run ambientOnly [("HOST", "0.0.0.0"), ("PORT", "8080")]) = some cfg ∧
        cfg.Host = "0.0.0.0" ∧ cfg.Port = "8080" ∧ cfg.TURNPort = "" ∧ cfg.TURNRealm = "" ∧
        cfg.TURNSecret = "" ∧ cfg.PublicHost = "" ∧ cfg.PublicIp = "" ∧
        cfg.ExternalIceServers = none) :=
  have ha := ((run_missing_env_files onlyRootEnv [("HOST", "0.0.0.0")]).1
    _ rfl (by decide)).2.2.1 (by decide)
  have hb := ((run_missing_env_files onlyServerEnv [("PORT", "8080")]).2.1
    _ rfl (by decide) (by decide)).2.2.2
  have hc := (run_missing_env_files ambientOnly [("HOST", "0.0.0.0"), ("PORT", "8080")]).2.2
    _ _ rfl (by decide) rfl (by decide)
  ⟨⟨(ha.2.2.2.2 (by decide)).2.2 () rfl, (ha.2.2.2.2 (by decide)).1, by decide, by decide⟩,
    ⟨(hb.2.2.2 (by decide)).2.2 () rfl, (hb.2.2.2 (by decide)).1, by decide, by decide⟩,
    ⟨hc.1, (hc.2.2.1.2.2.2 (by decide)).2.2 () rfl, hc.2.2.2 (by decide)⟩⟩

/-! ## The relay port bounds -/

theorem noEnvFiles_loads {Server : Type}
    (Unmarshal : String → Slice IceServerInfo × Option GoError)
    (NewServer : Config → Except GoError Server) (env0 : Environ) :
    loadsSucceed (⟨noEnvFiles, Unmarshal, NewServer⟩ : Platform Server) env0 ∧
      loadedEnviron (⟨noEnvFiles, Unmarshal, NewServer⟩ : Platform Server) env0 = env0 := by
  simp [loadsSucceed, firstLoadError, secondLoadError, firstLoadEnviron, loadedEnviron, Load,
    noEnvFiles, fatalLoad, IsNotExist]

/-- C10: the bound `relayPortMin ≤ relayPortMax` is not enforced.  With no env
files, `RELAYPORTMIN=5000` and `RELAYPORTMAX=4000`, whatever the decoder and
`NewServer` are, `run` passes to `NewServer` a `Config` with `RelayPortMin`
5000 above `RelayPortMax` 4000, and the only error it can return is the one
of `NewServer`. -/
theorem run_relay_ports_unordered {Server : Type}
    (Unmarshal : String → Slice IceServerInfo × Option GoError)
    (NewServer : Config → Except GoError Server) :
    ∃ cfg,
      builtConfig (run ⟨noEnvFiles, Unmarshal, NewServer⟩
        [("RELAYPORTMIN", "5000"), ("RELAYPORTMAX", "4000")]) = some cfg ∧
      cfg.RelayPortMin = 5000 ∧ cfg.RelayPortMax = 4000 ∧
      cfg.RelayPortMin > cfg.RelayPortMax ∧
      ∀ err, (run ⟨noEnvFiles, Unmarshal, NewServer⟩
          [("RELAYPORTMIN", "5000"), ("RELAYPORTMAX", "4000")]).progress =
            Progress.returned err →
        ∃ e, NewServer cfg = Except.error e ∧ err = Errorf_w "failed to create server: " e := by
  have hloads := noEnvFiles_loads Unmarshal NewServer
    [("RELAYPORTMIN", "5000"), ("RELAYPORTMAX", "4000")]
  have hl := hloads.1
  have henv := hloads.2
  have hp : (iceParse (⟨noEnvFiles, Unmarshal, NewServer⟩ : Platform Server)
      [("RELAYPORTMIN", "5000"), ("RELAYPORTMAX", "4000")]).err = none := by
    simp only [iceParse, henv]
    rfl
  have hmin : (candidateConfig (⟨noEnvFiles, Unmarshal, NewServer⟩ : Platform Server)
      [("RELAYPORTMIN", "5000"), ("RELAYPORTMAX", "4000")]).RelayPortMin = 5000 := by
    simp only [candidateConfig, makeConfig, henv]
    decide
  have hmax : (candidateConfig (⟨noEnvFiles, Unmarshal, NewServer⟩ : Platform Server)
      [("RELAYPORTMIN", "5000"), ("RELAYPORTMAX", "4000")]).RelayPortMax = 4000 := by
    simp only [candidateConfig, makeConfig, henv]
    decide
  refine ⟨_, builtConfig_run _ _ hl hp, hmin, hmax, by rw [hmin, hmax]; decide, ?_⟩
  intro err herr
  rcases hn : NewServer (candidateConfig (⟨noEnvFiles, Unmarshal, NewServer⟩ : Platform Server)
      [("RELAYPORTMIN", "5000"), ("RELAYPORTMAX", "4000")]) with e | srv
  · rw [run_newServer_error _ _ hl hp hn] at herr
    exact ⟨e, rfl, (Progress.returned.inj herr).symm⟩
  · rw [run_newServer_ok _ _ hl hp hn] at herr
    cases herr

/-! ## The relay port fields -/

theorem leadingDigits_of_all {bs : List Nat} (h : bs.all isDigitByte = true) :
    leadingDigits bs = bs := by
  unfold leadingDigits
  rw [List.takeWhile_eq_self_iff]
  intro x hx
  exact (List.all_eq_true.mp h) x hx

/-- The port field for a value with a byte that is not an ASCII digit. -/
theorem port_of_non_digit (v : String) (h : (goBytes v).all isDigitByte = false) :
    toUint16 (ParseUint v 16).1 =
      if 65535 < decimalValue (leadingDigits (goBytes v)) then 65535 else 0 := by
  rw [ParseUint16_value]
  by_cases hov : 65535 < decimalValue (leadingDigits (goBytes v))
  · simp [hov, toUint16]
  · simp [hov, h, toUint16]

/-- The port field for a value made of ASCII digits only that denotes a
number within 16 bits (the empty value among them). -/
theorem port_of_digits (v : String) (h : (goBytes v).all isDigitByte = true)
    (hle : decimalValue (goBytes v) ≤ 65535) :
    toUint16 (ParseUint v 16).1 = decimalValue (goBytes v) := by
  rw [ParseUint16_value, leadingDigits_of_all h]
  have hov : ¬ 65535 < decimalValue (goBytes v) := by omega
  simp only [hov, if_false, h, if_true, toUint16]
  exact Nat.mod_eq_of_lt (by omega)

/-- The port field for a value made of ASCII digits only that denotes a
number above 65535. -/
theorem port_of_overflow (v : String) (h : (goBytes v).all isDigitByte = true)
    (hgt : 65535 < decimalValue (goBytes v)) :
    toUint16 (ParseUint v 16).1 = 65535 := by
  rw [ParseUint16_value, leadingDigits_of_all h]
  simp [hgt, toUint16]

/-- The port field for a value that is not a valid unsigned 16-bit decimal
integer. -/
theorem port_of_invalid (v : String) (h : validUint16 v = false) :
    toUint16 (ParseUint v 16).1 =
      if 65535 < decimalValue (leadingDigits (goBytes v)) then 65535 else 0 := by
  by_cases hall : (goBytes v).all isDigitByte = true
  · by_cases hgt : 65535 < decimalValue (goBytes v)
    · rw [port_of_overflow v hall hgt, leadingDigits_of_all hall, if_pos hgt]
    · have hle : decimalValue (goBytes v) ≤ 65535 := by omega
      have hempty : goBytes v = [] := by
        simp only [validUint16, hall, hle, decide_True, Bool.and_true, Bool.not_eq_false',
          List.isEmpty_iff] at h
        exact h
      rw [port_of_digits v hall hle, hempty]
      rfl
  · exact port_of_non_digit v (by simpa using hall)

/-- The port field refines the amended reference parse. -/
theorem port_refines (v : String) (n : Nat) (h : referencePortAmended v = some n) :
    toUint16 (ParseUint v 16).1 = n := by
  unfold referencePortAmended at h
  by_cases hv : v = ""
  · subst hv
    simp only [if_true, Option.some.injEq] at h
    subst h
    rfl
  · rw [if_neg hv] at h
    by_cases hall : (goBytes v).all isDigitByte = true
    · rw [if_pos hall] at h
      by_cases hle : decimalValue (goBytes v) ≤ 65535
      · rw [if_pos hle, Option.some.injEq] at h
        rw [← h]
        exact port_of_digits v hall hle
      · rw [if_neg hle] at h
        cases h
    · rw [if_neg hall] at h
      rw [port_of_non_digit v (by simpa using hall)]
      by_cases hov : 65535 < decimalValue (leadingDigits (goBytes v))
      · rw [if_pos hov, Option.some.injEq] at h
        rw [if_pos hov, h]
      · rw [if_neg hov, Option.some.injEq] at h
        rw [if_neg hov, h]

/-- C2, as stated, fails: with `RELAYPORTMIN=70000`, which is not a valid
unsigned 16-bit decimal integer, the `RelayPortMin` of the `Config` built by
`run` is 65535, not 0. -/
theorem relay_port_above_range_counterexample :
    validUint16 (Getenv (loadedEnviron ambientOnly [("RELAYPORTMIN", "70000")])
        "RELAYPORTMIN") = false ∧
      (builtConfig (run ambientOnly [("RELAYPORTMIN", "70000")])).map Config.RelayPortMin =
        some 65535 ∧
      (builtConfig (run ambientOnly [("RELAYPORTMIN", "70000")])).map Config.RelayPortMin ≠
        some 0 := by
  decide

/-- C2, amended: for every value of `RELAYPORTMIN` (respectively
`RELAYPORTMAX`) that is missing or is not a valid unsigned 16-bit decimal
integer, the field of the `Config` built by `run` is 65535 when the ASCII
digits the value starts with denote a number above 65535, and 0 otherwise;
`run` does not abort because of it: when the env files load and the ICE JSON
parses it builds the `Config` and calls `NewServer`. -/
theorem run_relay_port_invalid {Server : Type} (P : Platform Server) (env0 : Environ)
    (hl : loadsSucceed P env0) (hp : (iceParse P env0).err = none) :
    ∃ cfg, builtConfig (run P env0) = some cfg ∧
      (validUint16 (Getenv (loadedEnviron P env0) "RELAYPORTMIN") = false →
        cfg.RelayPortMin =
          if 65535 < decimalValue (leadingDigits
            (goBytes (Getenv (loadedEnviron P env0) "RELAYPORTMIN"))) then 65535 else 0) ∧
      (validUint16 (Getenv (loadedEnviron P env0) "RELAYPORTMAX") = false →
        cfg.RelayPortMax =
          if 65535 < decimalValue (leadingDigits
            (goBytes (Getenv (loadedEnviron P env0) "RELAYPORTMAX"))) then 65535 else 0) :=
  ⟨candidateConfig P env0, builtConfig_run P env0 hl hp,
    fun h => port_of_invalid _ h, fun h => port_of_invalid _ h⟩

theorem run_relay_port_invalid_witness :
    ∃ cfg, builtConfig (run ambientOnly [("RELAYPORTMIN", "70000"), ("RELAYPORTMAX", "x1")]) =
        some cfg ∧
      (validUint16 (Getenv (loadedEnviron ambientOnly
          [("RELAYPORTMIN", "70000"), ("RELAYPORTMAX", "x1")]) "RELAYPORTMIN") = false →
        cfg.RelayPortMin =
          if 65535 < decimalValue (leadingDigits (goBytes (Getenv (loadedEnviron ambientOnly
            [("RELAYPORTMIN", "70000"), ("RELAYPORTMAX", "x1")]) "RELAYPORTMIN")))
          then 65535 else 0) ∧
      (validUint16 (Getenv (loadedEnviron ambientOnly
          [("RELAYPORTMIN", "70000"), ("RELAYPORTMAX", "x1")]) "RELAYPORTMAX") = false →
        cfg.RelayPortMax =
          if 65535 < decimalValue (leadingDigits (goBytes (Getenv (loadedEnviron ambientOnly
            [("RELAYPORTMIN", "70000"), ("RELAYPORTMAX", "x1")]) "RELAYPORTMAX")))
          then 65535 else 0) :=
  run_relay_port_invalid ambientOnly [("RELAYPORTMIN", "70000"), ("RELAYPORTMAX", "x1")]
    ⟨by decide, by decide⟩ (by decide)

/-- C6, as stated, fails: with `RELAYPORTMIN=99999x`, a value with a character
that is not an ASCII digit, for which the reference parse gives 0, the
`RelayPortMin` of the `Config` built by `run` is 65535. -/
theorem relay_port_reference_counterexample :
    (goBytes (Getenv (loadedEnviron ambientOnly [("RELAYPORTMIN", "99999x")])
        "RELAYPORTMIN")).all isDigitByte = false ∧
      referencePort (Getenv (loadedEnviron ambientOnly [("RELAYPORTMIN", "99999x")])
        "RELAYPORTMIN") = some 0 ∧
      (builtConfig (run ambientOnly [("RELAYPORTMIN", "99999x")])).map Config.RelayPortMin =
        some 65535 := by
  decide

/-- C6, amended: the relay port fields of the `Config` built by `run` equal
the amended reference parse of their variables: the number n for a string of
ASCII decimal digits denoting n ≤ 65535; 0 for a missing (empty) value; for a
value with a character that is not an ASCII digit, 65535 when the digits
before its first such character denote a number above 65535 and 0 otherwise.
In all these cases `run` builds the `Config` and calls `NewServer`, provided
the env files load and the ICE JSON parses. -/
theorem run_relay_port_refines {Server : Type} (P : Platform Server) (env0 : Environ)
    (hl : loadsSucceed P env0) (hp : (iceParse P env0).err = none) :
    ∃ cfg, builtConfig (run P env0) = some cfg ∧
      (∀ n, referencePortAmended (Getenv (loadedEnviron P env0) "RELAYPORTMIN") = some n →
        cfg.RelayPortMin = n) ∧
      (∀ n, referencePortAmended (Getenv (loadedEnviron P env0) "RELAYPORTMAX") = some n →
        cfg.RelayPortMax = n) :=
  ⟨candidateConfig P env0, builtConfig_run P env0 hl hp,
    fun n h => port_refines _ n h, fun n h => port_refines _ n h⟩

theorem run_relay_port_refines_witness :
    ∃ cfg, builtConfig (run ambientOnly [("RELAYPORTMIN", "3478"), ("RELAYPORTMAX", "99999x")]) =
        some cfg ∧
      (∀ n, referencePortAmended (Getenv (loadedEnviron ambientOnly
          [("RELAYPORTMIN", "3478"), ("RELAYPORTMAX", "99999x")]) "RELAYPORTMIN") = some n →
        cfg.RelayPortMin = n) ∧
      (∀ n, referencePortAmended (Getenv (loadedEnviron ambientOnly
          [("RELAYPORTMIN", "3478"), ("RELAYPORTMAX", "99999x")]) "RELAYPORTMAX") = some n →
        cfg.RelayPortMax = n) :=
  run_relay_port_refines ambientOnly [("RELAYPORTMIN", "3478"), ("RELAYPORTMAX", "99999x")]
    ⟨by decide, by decide⟩ (by decide)

/-! ## The wait on the context -/

theorem Lifecycle.exec_cons (s : Lifecycle) (ev : Event) (evs : List Event) :
    s.exec (ev :: evs) = (s.step ev).exec evs := rfl

theorem Lifecycle.exec_append (s : Lifecycle) (evs1 evs2 : List Event) :
    s.exec (evs1 ++ evs2) = (s.exec evs1).exec evs2 := by
  simp [Lifecycle.exec, List.foldl_append]

theorem Lifecycle.step_interrupt (s : Lifecycle) :
    s.step Event.interrupt = { s with ctxDone := true } := rfl

theorem Lifecycle.step_parentCancel (s : Lifecycle) :
    s.step Event.parentCancel = { s with ctxDone := true } := rfl

theorem Lifecycle.step_mainRuns (s : Lifecycle) :
    s.step Event.mainRuns =
      if s.result.isSome then s
      else if s.ctxDone then { s with result := some none }
      else s := rfl

/-- A return of `srv.Start()` changes neither the context nor the result. -/
theorem Lifecycle.step_startReturns (s : Lifecycle) (err : Option GoError) :
    (s.step (Event.startReturns err)).ctxDone = s.ctxDone ∧
      (s.step (Event.startReturns err)).result = s.result := by
  have h : s.step (Event.startReturns err) =
      if s.startFinished then s
      else
        match err with
        | some e => { s with startFinished := true,
                             logged := s.logged ++ ["Server error: " ++ e.Error] }
        | none => { s with startFinished := true } := rfl
  rw [h]
  by_cases hf : s.startFinished = true
  · rw [if_pos hf]
    exact ⟨rfl, rfl⟩
  · rw [if_neg hf]
    cases err <;> exact ⟨rfl, rfl⟩

/-- A step keeps the result of `run` among "not returned" and "returned nil". -/
theorem Lifecycle.step_result_nil (s : Lifecycle) (ev : Event)
    (h : s.result = none ∨ s.result = some none) :
    (s.step ev).result = none ∨ (s.step ev).result = some none := by
  cases ev with
  | interrupt => exact h
  | parentCancel => exact h
  | startReturns err => rw [(Lifecycle.step_startReturns s err).2]; exact h
  | mainRuns =>
    rw [Lifecycle.step_mainRuns]
    by_cases h1 : s.result.isSome = true
    · rw [if_pos h1]; exact h
    · rw [if_neg h1]
      by_cases h2 : s.ctxDone = true
      · rw [if_pos h2]; right; rfl
      · rw [if_neg h2]; exact h

theorem Lifecycle.exec_result_nil (evs : List Event) : ∀ s : Lifecycle,
    (s.result = none ∨ s.result = some none) →
    ((s.exec evs).result = none ∨ (s.exec evs).result = some none) := by
  induction evs with
  | nil => intro s h; exact h
  | cons ev rest ih =>
    intro s h
    rw [Lifecycle.exec_cons]
    exact ih _ (Lifecycle.step_result_nil s ev h)

/-- Without a cancelling event the context stays open and `run` stays in its
wait. -/
theorem Lifecycle.exec_no_cancel (evs : List Event) : ∀ s : Lifecycle,
    s.ctxDone = false → s.result = none → evs.any Event.cancels = false →
    (s.exec evs).ctxDone = false ∧ (s.exec evs).result = none := by
  induction evs with
  | nil => intro s h1 h2 _; exact ⟨h1, h2⟩
  | cons ev rest ih =>
    intro s h1 h2 hany
    rw [List.any_cons, Bool.or_eq_false_iff] at hany
    rw [Lifecycle.exec_cons]
    have hstep : (s.step ev).ctxDone = false ∧ (s.step ev).result = none := by
      cases ev with
      | interrupt => exact absurd hany.1 (by decide)
      | parentCancel => exact absurd hany.1 (by decide)
      | startReturns err =>
        have h := Lifecycle.step_startReturns s err
        exact ⟨by rw [h.1, h1], by rw [h.2, h2]⟩
      | mainRuns =>
        rw [Lifecycle.step_mainRuns]
        simp [h1, h2]
    exact ih _ hstep.1 hstep.2 hany.2

/-- Steps from two states with the same context and result lead to states
with the same context and result. -/
theorem Lifecycle.step_congr (s t : Lifecycle) (ev : Event)
    (hc : s.ctxDone = t.ctxDone) (hr : s.result = t.result) :
    (s.step ev).ctxDone = (t.step ev).ctxDone ∧ (s.step ev).result = (t.step ev).result := by
  cases ev with
  | interrupt => exact ⟨rfl, hr⟩
  | parentCancel => exact ⟨rfl, hr⟩
  | startReturns err =>
    have h1 := Lifecycle.step_startReturns s err
    have h2 := Lifecycle.step_startReturns t err
    exact ⟨by rw [h1.1, h2.1, hc], by rw [h1.2, h2.2, hr]⟩
  | mainRuns =>
    rw [Lifecycle.step_mainRuns, Lifecycle.step_mainRuns, hc, hr]
    by_cases h1 : t.result.isSome = true
    · rw [if_pos h1, if_pos h1]; exact ⟨hc, hr⟩
    · rw [if_neg h1, if_neg h1]
      by_cases h2 : t.ctxDone = true
      · rw [if_pos h2, if_pos h2]; exact ⟨rfl, rfl⟩
      · rw [if_neg h2, if_neg h2]; exact ⟨hc, hr⟩

theorem Lifecycle.exec_drop_startReturns (evs : List Event) : ∀ s t : Lifecycle,
    s.ctxDone = t.ctxDone → s.result = t.result →
    (s.exec (evs.filter fun ev => !ev.isStartReturn)).ctxDone = (t.exec evs).ctxDone ∧
      (s.exec (evs.filter fun ev => !ev.isStartReturn)).result = (t.exec evs).result := by
  induction evs with
  | nil => intro s t hc hr; exact ⟨hc, hr⟩
  | cons ev rest ih =>
    intro s t hc hr
    rw [Lifecycle.exec_cons]
    cases hev : ev.isStartReturn with
    | true =>
      have hfil : (ev :: rest).filter (fun ev => !ev.isStartReturn) =
          rest.filter (fun ev => !ev.isStartReturn) := by
        simp [List.filter_cons, hev]
      rw [hfil]
      cases ev with
      | startReturns err =>
        have h := Lifecycle.step_startReturns t err
        exact ih s _ (by rw [h.1, hc]) (by rw [h.2, hr])
      | interrupt => cases hev
      | parentCancel => cases hev
      | mainRuns => cases hev
    | false =>
      have hfil : (ev :: rest).filter (fun ev => !ev.isStartReturn) =
          ev :: rest.filter (fun ev => !ev.isStartReturn) := by
        simp [List.filter_cons, hev]
      rw [hfil, Lifecycle.exec_cons]
      have h := Lifecycle.step_congr s t ev hc hr
      exact ih _ _ h.1 h.2

/-- Once cancelled the context stays cancelled. -/
theorem Lifecycle.exec_ctxDone (evs : List Event) : ∀ s : Lifecycle,
    s.ctxDone = true → (s.exec evs).ctxDone = true := by
  induction evs with
  | nil => intro s h; exact h
  | cons ev rest ih =>
    intro s h
    rw [Lifecycle.exec_cons]
    apply ih
    cases ev with
    | interrupt => rfl
    | parentCancel => rfl
    | startReturns err => rw [(Lifecycle.step_startReturns s err).1, h]
    | mainRuns =>
      rw [Lifecycle.step_mainRuns]
      by_cases h1 : s.result.isSome = true
      · rw [if_pos h1]; exact h
      · rw [if_neg h1]
        by_cases h2 : s.ctxDone = true
        · rw [if_pos h2]; exact h
        · rw [if_neg h2]; exact h

/-- C8: once `run` has constructed the server and launched its run loop, for
every sequence of events: `run` has either not returned or returned nil; it
has returned only if a cancellation of the context (the interrupt) is among
the events; the returns of `srv.Start()`, with an error or not, change neither
the state of the context nor the result of `run`; and once the interrupt has
been delivered and the main goroutine runs, `run` has returned nil, whatever
`srv.Start()` has reported before or after. -/
theorem run_returns_nil_on_interrupt {Server : Type} (P : Platform Server) (env0 : Environ)
    (cfg : Config) (srv : Server) (hrun : (run P env0).progress = Progress.waiting cfg srv)
    (evs : List Event) :
    (runResult P env0 evs = none ∨ runResult P env0 evs = some none) ∧
    (runResult P env0 evs ≠ none → evs.any Event.cancels = true) ∧
    (runResult P env0 (evs.filter fun ev => !ev.isStartReturn) = runResult P env0 evs ∧
      (Lifecycle.start.exec (evs.filter fun ev => !ev.isStartReturn)).ctxDone =
        (Lifecycle.start.exec evs).ctxDone) ∧
    (∀ evs2, runResult P env0 (evs ++ [Event.interrupt] ++ evs2 ++ [Event.mainRuns]) =
      some none) := by
  have hres : ∀ l, runResult P env0 l = (Lifecycle.start.exec l).result := by
    intro l
    simp only [runResult, hrun]
  refine ⟨?_, ?_, ?_, ?_⟩
  · rw [hres]
    exact Lifecycle.exec_result_nil evs Lifecycle.start (Or.inl rfl)
  · intro hne
    rw [hres] at hne
    by_contra hany
    have hfalse : evs.any Event.cancels = false := by simpa using hany
    exact hne (Lifecycle.exec_no_cancel evs Lifecycle.start rfl rfl hfalse).2
  · have h := Lifecycle.exec_drop_startReturns evs Lifecycle.start Lifecycle.start rfl rfl
    rw [hres, hres]
    exact ⟨h.2, h.1⟩
  · intro evs2
    rw [hres, Lifecycle.exec_append, Lifecycle.exec_append, Lifecycle.exec_append]
    have hdone : (((Lifecycle.start.exec evs).exec [Event.interrupt]).exec evs2).ctxDone = true :=
      Lifecycle.exec_ctxDone evs2 _ rfl
    have hnil := Lifecycle.exec_result_nil (evs ++ [Event.interrupt] ++ evs2) Lifecycle.start
      (Or.inl rfl)
    rw [Lifecycle.exec_append, Lifecycle.exec_append] at hnil
    generalize ((Lifecycle.start.exec evs).exec [Event.interrupt]).exec evs2 = s at hdone hnil
    show (s.step Event.mainRuns).result = some none
    rcases hnil with h | h
    · simp [Lifecycle.step, h, hdone]
    · simp [Lifecycle.step, h]

theorem run_returns_nil_on_interrupt_witness :
    (run ambientOnly []).progress = Progress.waiting (candidateConfig ambientOnly []) () ∧
      runResult ambientOnly []
        ([Event.startReturns (some rejectedConfig)] ++ [Event.interrupt] ++ [] ++
          [Event.mainRuns]) = some none ∧
      (runResult ambientOnly [] [Event.startReturns (some rejectedConfig)] = none ∨
        runResult ambientOnly [] [Event.startReturns (some rejectedConfig)] = some none) :=
  have h := run_returns_nil_on_interrupt ambientOnly [] (candidateConfig ambientOnly []) ()
    (by decide) [Event.startReturns (some rejectedConfig)]
  ⟨by decide, h.2.2.2 [], h.1⟩

end Main
